import Mathlib

/-!
Verification of the blog-generation pipeline of this repository against its
natural-language specification.  Python strings are modelled as `List Char`
(ASCII-faithful: `str.lower`, `str.upper`, `str.title`, `str.isupper` are
modelled on the ASCII range; the regex character class `\s` is modelled as
the six ASCII whitespace characters recognised by Python's `re` module).
Every definition is translated from the source files under
`src/blogwriter_CrewAi/`.
-/

/-- The string model: a Python `str` as a list of characters. -/
abbrev Str := List Char

/-- ASCII lowercase letter test, `[a-z]`. -/
def isLowerAZ (c : Char) : Bool := 'a' ≤ c && c ≤ 'z'

/-- ASCII uppercase letter test, `[A-Z]`. -/
def isUpperAZ (c : Char) : Bool := 'A' ≤ c && c ≤ 'Z'

/-- ASCII digit test, `[0-9]`. -/
def isDigit09 (c : Char) : Bool := '0' ≤ c && c ≤ '9'

/-- ASCII letter test, `[a-zA-Z]`. -/
def isAsciiAlpha (c : Char) : Bool := isLowerAZ c || isUpperAZ c

/-- Lowercase ASCII alphanumeric, `[a-z0-9]`. -/
def isAlnumLower (c : Char) : Bool := isLowerAZ c || isDigit09 c

/-- Python regex `\s` on ASCII: space, tab, newline, carriage return,
vertical tab, form feed. -/
def isPySpace (c : Char) : Bool :=
  c == ' ' || c == '\t' || c == '\n' || c == '\r' ||
  c == Char.ofNat 11 || c == Char.ofNat 12

/-- ASCII `str.lower` on one character. -/
def toLowerAscii (c : Char) : Char :=
  if isUpperAZ c then Char.ofNat (c.toNat + 32) else c

/-- ASCII `str.upper` on one character. -/
def toUpperAscii (c : Char) : Char :=
  if isLowerAZ c then Char.ofNat (c.toNat - 32) else c

/-- Remove the longest suffix whose characters all satisfy `p`
(the tail half of Python `str.strip`). -/
def dropLastWhile (p : Char → Bool) (l : Str) : Str :=
  (l.reverse.dropWhile p).reverse

/-- Python `str.strip(chars)`: remove leading and trailing characters
satisfying `p`. -/
def stripBoth (p : Char → Bool) (l : Str) : Str :=
  dropLastWhile p (l.dropWhile p)

/-- Python `str.strip()` with no argument: strip whitespace at both ends. -/
def pyStrip (l : Str) : Str := stripBoth isPySpace l

/-- Helper for `pySplit`: accumulates the current word in reverse. -/
def pySplitGo (cur : Str) : Str → List Str
  | [] => if cur.isEmpty then [] else [cur.reverse]
  | c :: cs =>
    if isPySpace c then
      if cur.isEmpty then pySplitGo [] cs else cur.reverse :: pySplitGo [] cs
    else pySplitGo (c :: cur) cs

/-- Python `str.split()` with no argument: maximal runs of non-whitespace,
no empty tokens. -/
def pySplit (l : Str) : List Str := pySplitGo [] l

/-- Helper for `splitOnChar`. -/
def splitOnCharGo (sep : Char) (cur : Str) : Str → List Str
  | [] => [cur.reverse]
  | c :: cs =>
    if c == sep then cur.reverse :: splitOnCharGo sep [] cs
    else splitOnCharGo sep (c :: cur) cs

/-- Python `str.split(sep)` for a one-character separator: keeps empty
pieces, and the empty string splits to `[""]`. -/
def splitOnChar (sep : Char) (l : Str) : List Str := splitOnCharGo sep [] l

/-- Helper for `splitClass`. -/
def splitClassGo (p : Char → Bool) (cur : Str) : Str → List Str
  | [] => [cur.reverse]
  | c :: cs =>
    if p c then cur.reverse :: splitClassGo p [] cs
    else splitClassGo p (c :: cur) cs

/-- Python `re.split` on a one-character class such as `[,;|]`. -/
def splitClass (p : Char → Bool) (l : Str) : List Str := splitClassGo p [] l

/-! ## Slug generator

Translated from `DatabaseManager.generate_slug` in
`src/blogwriter_CrewAi/src/database/connection.py` (lines 22 to 34):
lowercase, drop every character outside `[a-z0-9\s-]`, collapse each run
of whitespace or hyphens to a single hyphen, strip hyphens at both ends,
then truncate to 100 characters. -/

/-- Characters kept by `re.sub(r'[^a-z0-9\s-]', '', slug)`. -/
def slugAllowed (c : Char) : Bool := isAlnumLower c || isPySpace c || c == '-'

/-- A separator for `re.sub(r'[\s-]+', '-', slug)`: whitespace or hyphen. -/
def isSep (c : Char) : Bool := isPySpace c || c == '-'

/-- `re.sub(r'[\s-]+', '-', slug)`: every maximal run of separators becomes
one hyphen.  The flag records whether the previous character was part of a
separator run already emitted. -/
def collapseSeps : Bool → Str → Str
  | _, [] => []
  | prev, c :: cs =>
    if isSep c then
      if prev then collapseSeps true cs else '-' :: collapseSeps true cs
    else c :: collapseSeps false cs

/-- `DatabaseManager.generate_slug` from
`src/blogwriter_CrewAi/src/database/connection.py`. -/
def generate_slug (title : Str) : Str :=
  let s1 := title.map toLowerAscii
  let s2 := s1.filter slugAllowed
  let s3 := collapseSeps false s2
  let s4 := stripBoth (fun c => c == '-') s3
  s4.take 100

/-- One character of the slug alphabet `[a-z0-9]`. -/
def isSlugChar (c : Char) : Bool := isAlnumLower c

/-- No two consecutive hyphens anywhere in the string. -/
def noDoubleHyphen : Str → Bool
  | [] => true
  | [_] => true
  | a :: b :: rest => !(a == '-' && b == '-') && noDoubleHyphen (b :: rest)

/-- Decidable form of the regex `^[a-z0-9]+(-[a-z0-9]+)*$`: nonempty, every
character is `[a-z0-9]` or a hyphen, no hyphen at either end, and no two
hyphens in a row. -/
def matchesSlugPattern (l : Str) : Bool :=
  !l.isEmpty &&
  l.all (fun c => isSlugChar c || c == '-') &&
  !(l.head? == some '-') &&
  !(l.getLast? == some '-') &&
  noDoubleHyphen l

/-- The slug computation before the final truncation to 100 characters
(steps 1 to 4 of `generate_slug`). -/
def slugCore (s : Str) : Str :=
  stripBoth (fun c => c == '-')
    (collapseSeps false ((s.map toLowerAscii).filter slugAllowed))

/-! ## Output extractor: regex model

`EnhancedBlogGenerator.extract_blog_components` in
`src/blogwriter_CrewAi/src/blog_generator.py` (lines 195 to 274) runs a
cascade of `re.search` calls.  The patterns used all share the shape
`LABEL \s{+ or *} (.+?) (?:\n|$)` or are anchored at line starts; they are
modelled here with explicit backtracking order: the whitespace run is tried
greedily from its maximal length downwards, and the lazy captured group
`(.+?)(?:\n|$)` extends exactly to the next newline or to the end of the
text (it must be nonempty). -/

/-- Length of the maximal `\s` prefix of the text. -/
def maxSpacePrefixLen (l : Str) : Nat := (l.takeWhile isPySpace).length

/-- Attempt the lazy group `(.+?)(?:\n|$)` after skipping `k` whitespace
characters: the capture is the run of non-newline characters there, and it
must be nonempty. -/
def capAt (l : Str) (k : Nat) : Option Str :=
  let cap := (l.drop k).takeWhile (fun c => !(c == '\n'))
  if cap.isEmpty then none else some cap

/-- Backtracking over the whitespace-run length: try `k` first (greedy),
then shorter runs down to `kmin`.  Returns the chosen run length and the
capture. -/
def capDesc (l : Str) (kmin : Nat) : Nat → Option (Nat × Str)
  | 0 =>
    if kmin = 0 then
      match capAt l 0 with
      | some cap => some (0, cap)
      | none => none
    else none
  | k + 1 =>
    if k + 1 < kmin then none
    else
      match capAt l (k + 1) with
      | some cap => some (k + 1, cap)
      | none => capDesc l kmin k

/-- `\s+(.+?)(?:\n|$)` applied at the start of `l`. -/
def capSpacesPlus (l : Str) : Option Str :=
  if maxSpacePrefixLen l = 0 then none
  else (capDesc l 1 (maxSpacePrefixLen l)).map Prod.snd

/-- `\s*(.+?)(?:\n|$)` applied at the start of `l`. -/
def capSpacesStar (l : Str) : Option Str :=
  (capDesc l 0 (maxSpacePrefixLen l)).map Prod.snd

/-- Case-insensitive literal prefix test (`pat` given in lowercase),
modelling `re.IGNORECASE` on the ASCII range. -/
def startsWithCI : Str → Str → Bool
  | [], _ => true
  | _ :: _, [] => false
  | p :: ps, c :: cs => (toLowerAscii c == p) && startsWithCI ps cs

/-- Scan for the title pattern `^#\s+(.+?)(?:\n|$)` with `re.MULTILINE`:
try every line start (the flag tracks whether the current position opens a
line); at a line start beginning with one `#`, apply `\s+` capture. -/
def searchTitleGo : Bool → Str → Option Str
  | _, [] => none
  | lineStart, c :: cs =>
    if lineStart && c == '#' then
      match capSpacesPlus cs with
      | some cap => some cap
      | none => searchTitleGo (c == '\n') cs
    else searchTitleGo (c == '\n') cs

/-- Leftmost match of `re.search(r'^#\s+(.+?)(?:\n|$)', content, re.MULTILINE)`. -/
def searchTitle (l : Str) : Option Str := searchTitleGo true l

/-- Leftmost match of `LABEL\s*(.+?)(?:\n|$)` anywhere in the text, with the
label compared case-insensitively (`lab` is given in lowercase). -/
def searchLabelGo (lab : Str) : Str → Option Str
  | [] => none
  | c :: cs =>
    if startsWithCI lab (c :: cs) then
      match capSpacesStar ((c :: cs).drop lab.length) with
      | some cap => some cap
      | none => searchLabelGo lab cs
    else searchLabelGo lab cs

/-- Leftmost match of `(?:Tags|TAGS|Keywords):\s*(.+?)(?:\n|$)` with
`re.IGNORECASE` (the second tag fallback pattern). -/
def searchTagsKeywords : Str → Option Str
  | [] => none
  | c :: cs =>
    if startsWithCI ("tags:".data) (c :: cs) then
      match capSpacesStar ((c :: cs).drop 5) with
      | some cap => some cap
      | none => searchTagsKeywords cs
    else if startsWithCI ("keywords:".data) (c :: cs) then
      match capSpacesStar ((c :: cs).drop 9) with
      | some cap => some cap
      | none => searchTagsKeywords cs
    else searchTagsKeywords cs

/-- Leftmost match of `(?:Suggested tags|Relevant tags):\s*(.+?)(?:\n|$)`
with `re.IGNORECASE` (the third tag fallback pattern). -/
def searchSuggestedTags : Str → Option Str
  | [] => none
  | c :: cs =>
    if startsWithCI ("suggested tags:".data) (c :: cs) then
      match capSpacesStar ((c :: cs).drop 15) with
      | some cap => some cap
      | none => searchSuggestedTags cs
    else if startsWithCI ("relevant tags:".data) (c :: cs) then
      match capSpacesStar ((c :: cs).drop 14) with
      | some cap => some cap
      | none => searchSuggestedTags cs
    else searchSuggestedTags cs

/-! ### Second title fallback

`r"(?:^|\n)([A-Z][^.\n]+(?:AI|Technology|Intelligence|Machine Learning|Deep Learning)[^.\n]*)"`
with `re.MULTILINE | re.IGNORECASE`.  A match lives inside a single line:
the line must open with a letter (`[A-Z]` under `IGNORECASE`), the keyword
must start at an offset of at least 2 with no period before it on the line
(`[^.\n]+` is greedy, so backtracking finds the rightmost such keyword
occurrence), and the capture then extends to the next period or the end of
the line. -/

/-- If one of the five keywords matches case-insensitively at the head of
`l`, return its length (alternation order of the source pattern; the
keywords start with distinct letters, so at most one can match). -/
def kwLenAt (l : Str) : Option Nat :=
  if startsWithCI ("ai".data) l then some 2
  else if startsWithCI ("technology".data) l then some 10
  else if startsWithCI ("intelligence".data) l then some 12
  else if startsWithCI ("machine learning".data) l then some 16
  else if startsWithCI ("deep learning".data) l then some 13
  else none

/-- No period among the characters. -/
def noDotIn (l : Str) : Bool := l.all (fun c => !(c == '.'))

/-- Scan keyword start offsets from `q` downwards (greedy `[^.\n]+` gives
the rightmost feasible offset priority); an offset is feasible when it is
at least 2, a keyword matches there, and the line holds no period strictly
before it (past the leading letter). -/
def kwScanDown (line : Str) : Nat → Option (Nat × Nat)
  | 0 => none
  | q + 1 =>
    if q + 1 < 2 then none
    else
      match kwLenAt (line.drop (q + 1)) with
      | some klen =>
        if noDotIn ((line.take (q + 1)).drop 1) then some (q + 1, klen)
        else kwScanDown line q
      | none => kwScanDown line q

/-- Try the second fallback pattern on one line. -/
def fallbackTitleLine (line : Str) : Option Str :=
  match line with
  | [] => none
  | c :: _ =>
    if isAsciiAlpha c then
      match kwScanDown line line.length with
      | some (q, klen) =>
        some ((line.take (q + klen)) ++
          ((line.drop (q + klen)).takeWhile (fun c2 => !(c2 == '.'))))
      | none => none
    else none

/-- Leftmost match of the second fallback pattern: lines are candidate
start positions, tried top to bottom. -/
def fallbackTitleLines : List Str → Option Str
  | [] => none
  | ln :: rest =>
    match fallbackTitleLine ln with
    | some cap => some cap
    | none => fallbackTitleLines rest

/-- `re.search` of the second title fallback pattern over the whole text. -/
def searchFallbackTitle (content : Str) : Option Str :=
  fallbackTitleLines (splitOnChar '\n' content)

/-! ### Meta-description removal

`re.sub(r'(?:Meta Description|meta description):\s*.+?(?:\n|$)', '', content,
flags=re.IGNORECASE)` removes every non-overlapping match, including the
newline consumed by `(?:\n|$)`.  The recursion is driven by a fuel counter
(one unit per character of the text, which over-approximates the number of
scanning steps). -/

/-- The meta-description label, lowercase, 17 characters. -/
def metaLabel : Str := "meta description:".data

/-- One pass of `re.sub` deleting every match of the meta-description
pattern; `fuel` bounds the recursion and is in practice at least the length
of the remaining text. -/
def removeMetaGo : Nat → Str → Str
  | 0, l => l
  | fuel + 1, l =>
    match l with
    | [] => []
    | c :: cs =>
      if startsWithCI metaLabel l then
        match capDesc (l.drop 17) 0 (maxSpacePrefixLen (l.drop 17)) with
        | some (k, cap) =>
          let rest := l.drop (17 + k + cap.length)
          let rest2 := match rest with
            | '\n' :: r => r
            | _ => rest
          removeMetaGo fuel rest2
        | none => c :: removeMetaGo fuel cs
      else c :: removeMetaGo fuel cs

/-- The meta-description line removal performed at line 249 of
`src/blogwriter_CrewAi/src/blog_generator.py`. -/
def removeMeta (l : Str) : Str := removeMetaGo (l.length + 1) l

/-! ## Markdown normalizer

`EnhancedBlogGenerator.ensure_proper_markdown`
(`src/blogwriter_CrewAi/src/blog_generator.py`, lines 276 to 305). -/

/-- Python `str.isupper` on ASCII: at least one uppercase letter and no
lowercase letter. -/
def pyIsUpper (l : Str) : Bool := l.any isUpperAZ && !(l.any isLowerAZ)

/-- Helper for `pyTitle`: the flag records whether the previous character
was a letter. -/
def pyTitleGo (prevAlpha : Bool) : Str → Str
  | [] => []
  | c :: cs =>
    if isAsciiAlpha c then
      (if prevAlpha then toLowerAscii c else toUpperAscii c) :: pyTitleGo true cs
    else c :: pyTitleGo false cs

/-- Python `str.title` on ASCII: each letter run starts uppercase, the rest
of the run is lowercased. -/
def pyTitle (l : Str) : Str := pyTitleGo false l

/-- The per-line body of the loop in `ensure_proper_markdown`: strip the
line; keep empties; pass heading lines through; rewrite an all-uppercase
line of at most five words as a level-2 title-case heading; otherwise keep
the stripped line. -/
def processLine (l : Str) : Str :=
  let t := pyStrip l
  if t.isEmpty then []
  else if (List.isPrefixOf ("# ".data) t) && !(List.isPrefixOf ("## ".data) t) then t
  else if List.isPrefixOf ("##".data) t || List.isPrefixOf ("###".data) t then t
  else if pyIsUpper t && decide ((pySplit t).length ≤ 5) then
    ("## ".data) ++ pyTitle t
  else t

/-- `EnhancedBlogGenerator.ensure_proper_markdown`: split on newlines, map
the loop body over the lines, and rejoin with newlines.  (The `except`
handler of the source returns the input unchanged; the body consists of
total operations, so the handler is unreachable in this model.) -/
def ensure_proper_markdown (content : Str) : Str :=
  List.intercalate ['\n'] ((splitOnChar '\n' content).map processLine)

/-! ## The extractor assembled -/

/-- Title extraction, lines 202 to 219 of
`src/blogwriter_CrewAi/src/blog_generator.py`: the markdown heading, then
the `Title:` label, then the capitalized-keyword-sentence fallback, then a
fixed default; the winner is stripped of whitespace and then of surrounding
single or double quotes. -/
def extractTitle (content : Str) : Str :=
  let t :=
    match searchTitle content with
    | some cap => pyStrip cap
    | none =>
      match searchLabelGo ("title:".data) content with
      | some cap => pyStrip cap
      | none =>
        match searchFallbackTitle content with
        | some cap => pyStrip cap
        | none => "Latest Developments in Generative AI".data
  stripBoth (fun c => c == '"' || c == Char.ofNat 39) t

/-- The tag post-processing of line 234 and 235: split the captured text on
`[,;|]`, strip whitespace, then commas, then whitespace from each piece,
and keep only pieces longer than one character. -/
def splitTags (txt : Str) : List Str :=
  ((splitClass (fun c => c == ',' || c == ';' || c == '|') txt).map
    (fun t => pyStrip (stripBoth (fun c => c == ',') (pyStrip t)))).filter
    (fun t => decide (1 < t.length))

/-- The fixed default tag list of line 240. -/
def defaultTags : List Str :=
  (["Generative AI", "Artificial Intelligence", "Technology",
    "Machine Learning", "Innovation"] : List String).map (fun s => s.data)

/-- Lines 221 to 236: the first tag pattern that matches wins and its
capture is split; when none matches the list stays empty. -/
def extractTagsRaw (content : Str) : List Str :=
  match searchLabelGo ("**tags:**".data) content with
  | some txt => splitTags txt
  | none =>
    match searchTagsKeywords content with
    | some txt => splitTags txt
    | none =>
      match searchSuggestedTags content with
      | some txt => splitTags txt
      | none => []

/-- Lines 221 to 240 combined: the default tag list substitutes for an
empty result. -/
def extractTags (content : Str) : List Str :=
  let t := extractTagsRaw content
  if t.isEmpty then defaultTags else t

/-- Line 243 and 244: the meta-description capture, stripped. -/
def searchMeta (content : Str) : Option Str :=
  (searchLabelGo metaLabel content).map pyStrip

/-- The characters removed before counting words, line 255:
`re.sub(r'[#*`\[\]()]', '', content)`. -/
def removeMdChars (l : Str) : Str :=
  l.filter (fun c =>
    !(c == '#' || c == '*' || c == Char.ofNat 96 || c == '[' || c == ']' ||
      c == '(' || c == ')'))

/-- The in-memory result of one extraction (the dict built at lines 258 to
264 of `src/blogwriter_CrewAi/src/blog_generator.py`). -/
structure ExtractResult where
  title : Str
  content : Str
  tags : List Str
  word_count : Nat
  meta_description : Option Str
deriving DecidableEq, Repr

/-- The `try` body of `extract_blog_components` (lines 197 to 264): strip
the raw text, extract title and tags and meta description from it, delete
the meta-description lines from the content when one was found, normalize
the markdown, and count words on the normalized content with markdown
punctuation removed; at most seven tags are kept. -/
def extractTry (raw : Str) : ExtractResult :=
  let content0 := pyStrip raw
  let title := extractTitle content0
  let tags := extractTags content0
  let meta := searchMeta content0
  let content1 :=
    match meta with
    | some _ => removeMeta content0
    | none => content0
  let content2 := ensure_proper_markdown content1
  { title := title
    content := content2
    tags := tags.take 7
    word_count := (pySplit (removeMdChars content2)).length
    meta_description := meta }

/-- The `except` branch of `extract_blog_components` (lines 266 to 274):
fixed default title and tags, the untouched raw text as content, and a
plain whitespace word count. -/
def extractOnError (raw : Str) : ExtractResult :=
  { title := "Generated Blog Post on Generative AI".data
    content := raw
    tags := ["Generative AI".data, "Technology".data]
    word_count := (pySplit raw).length
    meta_description := none }

/-- `EnhancedBlogGenerator.extract_blog_components`.  Every operation of
the `try` body is total on strings, so no exception can occur and the
function always returns the `try` result; `extractOnError` records what the
handler would return. -/
def extract_blog_components (raw : Str) : ExtractResult := extractTry raw

/-! ## Topic selector

`EnhancedBlogGenerator.generate_dynamic_topic` and the class constant
`GENERATIVE_AI_TOPICS` (`src/blogwriter_CrewAi/src/blog_generator.py`,
lines 28 to 49 and 93 to 109).  In the source the method takes no theme
argument and the class defines a single topic pool.  `random.choice` over a
sequence is modelled by an arbitrary natural number reduced modulo the
sequence length, and `datetime.now().year` by a parameter. -/

/-- The single topic pool of the source, lines 28 to 49. -/
def GENERATIVE_AI_TOPICS : List Str :=
  (["Large Language Models (LLMs) and their latest developments",
    "Retrieval-Augmented Generation (RAG) systems and applications",
    "AI Agents and autonomous systems",
    "Multi-modal AI models combining text, image, and audio",
    "AI-powered chatbots and conversational interfaces",
    "AI image generation and computer vision breakthroughs",
    "AI video generation and synthetic media",
    "AI audio and music generation technologies",
    "AI code generation and programming assistants",
    "Prompt engineering and optimization techniques",
    "Fine-tuning and customization of AI models",
    "AI safety and alignment research",
    "Edge AI and on-device machine learning",
    "AI in creative industries and content creation",
    "Generative AI ethics and responsible AI development",
    "AI model compression and efficiency improvements",
    "Open-source vs proprietary AI models comparison",
    "AI-powered automation tools and workflows",
    "Generative AI in healthcare and medical applications",
    "AI in education and personalized learning systems"] : List String).map
    (fun s => s.data)

/-- The trending-aspect suffix pool built at lines 99 to 106; the first
entry interpolates the current year. -/
def trendingAspects (year : Nat) : List Str :=
  [("in ".data ++ (toString year).data),
   "latest trends and innovations".data,
   "breaking developments".data,
   "industry impact and future prospects".data,
   "practical applications and use cases".data,
   "challenges and opportunities ahead".data]

/-- `random.choice` over a list, driven by an oracle natural number. -/
def pickUniform (l : List Str) (r : Nat) : Str := l.getD (r % l.length) []

/-- `EnhancedBlogGenerator.generate_dynamic_topic` (lines 93 to 109): pick
a base topic from the single pool, pick an aspect, join with a dash.  The
two oracle numbers stand for the two `random.choice` draws. -/
def generate_dynamic_topic (year r1 r2 : Nat) : Str :=
  pickUniform GENERATIVE_AI_TOPICS r1 ++ " - ".data ++
    pickUniform (trendingAspects year) r2

/-! ## Generation orchestrator

`EnhancedBlogGenerator.generate_blog_post`
(`src/blogwriter_CrewAi/src/blog_generator.py`, lines 307 to 371).  The
external collaborators are oracles: the crew pipeline may raise or return a
possibly-falsy string; `save_blog_post` and `log_generation` never raise
(both wrap their bodies in their own catch-all handlers in
`src/blogwriter_CrewAi/src/database/connection.py`), so they are modelled
as total functions returning an optional record. -/

/-- One `GenerationLog` write (topic, status, optional error message,
optional linked post id). -/
structure LogEntry where
  topic : Str
  status : Str
  errorMsg : Option Str
  postId : Option Nat
deriving DecidableEq, Repr

/-- The persisted blog-post record as the orchestrator reads it back. -/
structure PostRecord where
  id : Nat
  title : Str
  tags : List Str
  wordCount : Nat
  createdAt : Nat
deriving DecidableEq, Repr

/-- The summary dict returned on success (lines 355 to 362). -/
structure BlogSummary where
  id : Nat
  title : Str
  topic : Str
  tags : List Str
  word_count : Nat
  created_at : Nat
deriving DecidableEq, Repr

/-- Outcome of the external crew pipeline call `crew.kickoff()`: it may
raise, or return a value that is falsy (`None` or empty) or a string. -/
inductive CrewOutcome where
  | exn (msg : Str)
  | ok (out : Option Str)
deriving DecidableEq, Repr

/-- `EnhancedBlogGenerator.generate_blog_post` with the already-resolved
topic: log `in_progress`; run the crew; on a raised exception the
catch-all handler logs `failed` with the formatted message and yields no
result; on falsy crew output log `failed` and yield no result; otherwise
extract, save, and either log `success` with the post id and return the
summary, or log `failed` when persistence returned no record.  The first
component collects the log writes in order. -/
def generate_blog_post (topic : Str) (crew : CrewOutcome)
    (save : ExtractResult → Option PostRecord) :
    List LogEntry × Option BlogSummary :=
  let started : List LogEntry := [⟨topic, "in_progress".data, none, none⟩]
  match crew with
  | .exn msg =>
    (started ++ [⟨topic, "failed".data,
      some ("Error generating blog post: ".data ++ msg), none⟩], none)
  | .ok none =>
    (started ++ [⟨topic, "failed".data,
      some ("No output generated from crew".data), none⟩], none)
  | .ok (some text) =>
    let comps := extract_blog_components text
    match save comps with
    | none =>
      (started ++ [⟨topic, "failed".data,
        some ("Failed to save to database".data), none⟩], none)
    | some post =>
      (started ++ [⟨topic, "success".data, none, some post.id⟩],
        some ⟨post.id, post.title, topic, post.tags, post.wordCount,
          post.createdAt⟩)

/-- The failure conditions named by the spec for one orchestration attempt:
the pipeline raised, the pipeline returned nothing, or persistence returned
no record. -/
def orchestrationFails (crew : CrewOutcome)
    (save : ExtractResult → Option PostRecord) : Prop :=
  match crew with
  | .exn _ => True
  | .ok none => True
  | .ok (some text) => save (extract_blog_components text) = none

/-! ## Job scheduler wrapper

`BlogScheduler` (`src/blogwriter_CrewAi/src/scheduler.py`).  The wrapped
APScheduler instance is modelled by its registered job list (`add_job` with
`replace_existing=True` replaces the job holding the same id) and a started
flag; `_running` is the wrapper's own flag. -/

/-- One registered job: id and human name. -/
structure SchedJob where
  id : Str
  name : Str
deriving DecidableEq, Repr

/-- The scheduler wrapper state. -/
structure SchedulerState where
  jobs : List SchedJob
  schedStarted : Bool
  running : Bool
deriving DecidableEq, Repr

/-- `scheduler.add_job(..., replace_existing=True)`: a job with the same id
is replaced in place, otherwise the job is appended. -/
def add_job (s : SchedulerState) (j : SchedJob) : SchedulerState :=
  if s.jobs.any (fun x => x.id == j.id) then
    { s with jobs := s.jobs.map (fun x => if x.id == j.id then j else x) }
  else { s with jobs := s.jobs ++ [j] }

/-- The generation job registered at lines 88 to 94 of `scheduler.py`. -/
def blogGenerationJob : SchedJob :=
  ⟨"blog_generation_job".data, "Generate Blog Post".data⟩

/-- The stats job registered at lines 97 to 103. -/
def statsReportingJob : SchedJob :=
  ⟨"stats_reporting_job".data, "Report Generation Stats".data⟩

/-- The cleanup job registered at lines 106 to 112. -/
def dailyCleanupJob : SchedJob :=
  ⟨"daily_cleanup_job".data, "Daily Cleanup".data⟩

/-- `BlogScheduler.start_scheduler` (lines 80 to 131): warn and return when
already running; otherwise register the three jobs and start. -/
def start_scheduler (s : SchedulerState) : SchedulerState :=
  if s.running then s
  else
    let s1 := add_job s blogGenerationJob
    let s2 := add_job s1 statsReportingJob
    let s3 := add_job s2 dailyCleanupJob
    { s3 with schedStarted := true, running := true }

/-- `BlogScheduler.stop_scheduler` (lines 133 to 145): warn and return when
not running; otherwise shut down and clear the flag. -/
def stop_scheduler (s : SchedulerState) : SchedulerState :=
  if s.running then { s with schedStarted := false, running := false } else s

/-- `BlogScheduler.is_running` (lines 160 to 162). -/
def is_running (s : SchedulerState) : Bool := s.running

/-! ## Health endpoint

`health_check` in `src/blogwriter_CrewAi/main.py` (lines 135 to 175) and
the attribute set of `DatabaseManager`
(`src/blogwriter_CrewAi/src/database/connection.py`, lines 15 to 209).
Python attribute lookup on `db_manager.health_check` raises
`AttributeError` when the class defines no such attribute, which lands in
the handler's `except` branch. -/

/-- Every attribute `DatabaseManager` defines: the two instance attributes
set in `__init__` and the methods of the class body. -/
def databaseManagerAttributes : List Str :=
  (["db", "_connected", "__init__", "generate_slug", "connect",
    "disconnect", "create_blog_post", "get_recent_blog_posts",
    "get_blog_posts_by_topic", "log_generation_attempt",
    "get_generation_stats"] : List String).map (fun s => s.data)

/-- The JSON body and status code the `/health` handler produces. -/
structure HealthResponse where
  statusCode : Nat
  status : Str
  database : Str
  scheduler : Str
deriving DecidableEq, Repr

/-- The `/health` route handler: its first action is the attribute lookup
`db_manager.health_check`; when the attribute is missing the
`AttributeError` lands in the `except` branch (lines 164 to 175), which
answers 503 with database `error` and scheduler `unknown`.  `onFound`
stands for whatever the `try` branch would do if the attribute existed. -/
def health_check_route (onFound : Unit → HealthResponse) : HealthResponse :=
  if ("health_check".data) ∈ databaseManagerAttributes then onFound ()
  else ⟨503, "unhealthy".data, "error".data, "unknown".data⟩

/-! ## Claims -/

/-- The canonical input of claim C1. -/
def c1Input : Str := "# My Title\nBody text here.\n**Tags:** a, b, c".data

/-- C1 counterexample: on a text containing the heading `# My Title` and the
line `**Tags:** a, b, c`, the extractor does NOT return the tags
`["a", "b", "c"]`: each of them is a single character, the splitting rule
discards single-character tokens, the tag list comes out empty and the
fixed default tag list is substituted. -/
theorem extract_c1_claim_false :
    ¬ ((extract_blog_components c1Input).title = "My Title".data ∧
       (extract_blog_components c1Input).tags = ["a".data, "b".data, "c".data]) := by
  decide

/-- C1 amended: on that input the extractor returns title `My Title`, and
because the captured tags `a`, `b`, `c` are all single characters they are
discarded and the default tag list is returned instead. -/
theorem extract_c1_title_and_default_tags :
    (extract_blog_components c1Input).title = "My Title".data ∧
    (extract_blog_components c1Input).tags = defaultTags := by
  decide

/-- C2: every topic `generate_dynamic_topic` can produce, for every state
of the randomness source and every year, is a topic of the single
generative-AI pool with a trending-aspect suffix.  The source function
accepts no theme argument and no blockchain pool exists in
`src/blog_generator.py`, so no call can ever draw from a blockchain pool,
although the repository test scripts call
`generate_dynamic_topic(theme="blockchain")`. -/
theorem generate_dynamic_topic_only_genai_pool :
    ∀ year r1 r2 : Nat, ∃ t ∈ GENERATIVE_AI_TOPICS, ∃ a ∈ trendingAspects year,
      generate_dynamic_topic year r1 r2 = t ++ " - ".data ++ a := by
  intro year r1 r2
  refine ⟨pickUniform GENERATIVE_AI_TOPICS r1, ?_,
    pickUniform (trendingAspects year) r2, ?_, rfl⟩
  · have hlen : 0 < GENERATIVE_AI_TOPICS.length := by decide
    have hm : r1 % GENERATIVE_AI_TOPICS.length < GENERATIVE_AI_TOPICS.length :=
      Nat.mod_lt _ hlen
    unfold pickUniform
    rw [List.getD_eq_getElem _ _ hm]
    exact List.getElem_mem hm
  · have hlen : 0 < (trendingAspects year).length := by simp [trendingAspects]
    have hm : r2 % (trendingAspects year).length < (trendingAspects year).length :=
      Nat.mod_lt _ hlen
    unfold pickUniform
    rw [List.getD_eq_getElem _ _ hm]
    exact List.getElem_mem hm

/-- C4: whenever one of the failure conditions holds (the crew pipeline
raised, returned nothing, or persistence returned no record), the
orchestrator returns no result and its final generation-log write has
status `failed` and carries an error message; the exception case goes
through the catch-all handler, so nothing propagates to the scheduled-job
path. -/
theorem generate_blog_post_failure_behavior :
    ∀ (topic : Str) (crew : CrewOutcome) (save : ExtractResult → Option PostRecord),
      orchestrationFails crew save →
        (generate_blog_post topic crew save).2 = none ∧
        ∃ e, (generate_blog_post topic crew save).1.getLast? = some e ∧
          e.status = "failed".data ∧ e.errorMsg.isSome = true := by
  intro topic crew save h
  cases crew with
  | exn msg =>
    refine ⟨rfl, ⟨topic, "failed".data,
      some ("Error generating blog post: ".data ++ msg), none⟩, ?_, rfl, rfl⟩
    simp [generate_blog_post]
  | ok o =>
    cases o with
    | none =>
      refine ⟨rfl, ⟨topic, "failed".data,
        some ("No output generated from crew".data), none⟩, ?_, rfl, rfl⟩
      simp [generate_blog_post]
    | some text =>
      have hs : save (extract_blog_components text) = none := h
      refine ⟨?_, ⟨topic, "failed".data,
        some ("Failed to save to database".data), none⟩, ?_, rfl, rfl⟩
      · simp [generate_blog_post, hs]
      · simp [generate_blog_post, hs]

/-- Witness for the C4 theorem at a concrete failing input. -/
theorem generate_blog_post_failure_behavior_w :
    orchestrationFails (.ok none) (fun _ => none) ∧
    ((generate_blog_post ("t".data) (.ok none) (fun _ => none)).2 = none ∧
      ∃ e, (generate_blog_post ("t".data) (.ok none) (fun _ => none)).1.getLast? = some e ∧
        e.status = "failed".data ∧ e.errorMsg.isSome = true) :=
  ⟨trivial, generate_blog_post_failure_behavior ("t".data) (.ok none) (fun _ => none) trivial⟩

/-- C5: the extraction routine is a total function of the input text (no
exception escapes it), and the result its exception handler would build
keeps the raw input text untouched as content, with the fixed default
title, the fixed default tag pair, and a plain whitespace word count. -/
theorem extract_components_total_and_handler_defaults :
    ∀ s : Str,
      extract_blog_components s = extractTry s ∧
      (extractOnError s).content = s ∧
      (extractOnError s).title = "Generated Blog Post on Generative AI".data ∧
      (extractOnError s).tags = ["Generative AI".data, "Technology".data] ∧
      (extractOnError s).word_count = (pySplit s).length :=
  fun _ => ⟨rfl, rfl, rfl, rfl, rfl⟩

/-- C6: `DatabaseManager` defines no `health_check` attribute, so the
`/health` handler always lands in its `except` branch and answers 503 with
database `error`, whatever the `try` branch would have produced and
whatever the actual database state is. -/
theorem health_route_always_error :
    (("health_check".data) ∉ databaseManagerAttributes) ∧
    ∀ onFound : Unit → HealthResponse,
      health_check_route onFound =
        ⟨503, "unhealthy".data, "error".data, "unknown".data⟩ :=
  ⟨by decide, fun _ => if_neg (by decide)⟩

/-- C9: the extractor's word count is exactly the number of
whitespace-delimited tokens of its returned content after the markdown
punctuation characters are removed; on the content
`# Title\n**bold** text here` the count is 4. -/
theorem word_count_counts_stripped_tokens :
    (∀ s : Str, (extract_blog_components s).word_count =
      (pySplit (removeMdChars ((extract_blog_components s).content))).length) ∧
    (extract_blog_components ("# Title\n**bold** text here".data)).word_count = 4 :=
  ⟨fun _ => rfl, by decide⟩

/-- `add_job` with `replace_existing=True` keeps the job-id list free of
duplicates: replacing preserves the id list, appending adds an id that was
absent. -/
lemma add_job_ids_nodup (s : SchedulerState) (j : SchedJob)
    (h : (s.jobs.map SchedJob.id).Nodup) :
    ((add_job s j).jobs.map SchedJob.id).Nodup := by
  unfold add_job
  by_cases hc : s.jobs.any (fun x => x.id == j.id)
  · rw [if_pos hc]
    have hmap : (s.jobs.map (fun x => if x.id == j.id then j else x)).map SchedJob.id
        = s.jobs.map SchedJob.id := by
      rw [List.map_map]
      apply List.map_congr_left
      intro x _
      by_cases hid : x.id == j.id
      · simp only [Function.comp_apply, hid, if_true]
        exact (eq_of_beq hid).symm
      · have hne : x.id ≠ j.id := fun he => hid (beq_iff_eq.mpr he)
        simp [Function.comp_apply, hne]
    show ((s.jobs.map (fun x => if x.id == j.id then j else x)).map SchedJob.id).Nodup
    rw [hmap]
    exact h
  · rw [if_neg hc]
    have hnotmem : j.id ∉ s.jobs.map SchedJob.id := by
      intro hmem
      rcases List.mem_map.mp hmem with ⟨x, hx, hxid⟩
      exact hc (List.any_eq_true.mpr ⟨x, hx, beq_iff_eq.mpr hxid⟩)
    simp only [List.map_append, List.map_cons, List.map_nil]
    exact List.Nodup.append h (List.nodup_singleton _)
      (by simpa [List.disjoint_singleton] using hnotmem)

/-- C10: starting the scheduler while it is already running is a no-op, so
two consecutive starts register no duplicate jobs (the registered job-id
list stays duplicate-free), and `is_running` is true after any start and
false after any stop. -/
theorem scheduler_start_idempotent_is_running_exact :
    ∀ s : SchedulerState,
      (s.running = true → start_scheduler s = s) ∧
      start_scheduler (start_scheduler s) = start_scheduler s ∧
      ((s.jobs.map SchedJob.id).Nodup →
        ((start_scheduler s).jobs.map SchedJob.id).Nodup) ∧
      is_running (start_scheduler s) = true ∧
      is_running (stop_scheduler s) = false := by
  intro s
  have hrun : ∀ t : SchedulerState, is_running (start_scheduler t) = true := by
    intro t
    by_cases h : t.running
    · simp [start_scheduler, h, is_running]
    · simp [start_scheduler, h, is_running]
  have hidem : ∀ t : SchedulerState, t.running = true → start_scheduler t = t := by
    intro t h
    simp [start_scheduler, h]
  refine ⟨hidem s, ?_, ?_, hrun s, ?_⟩
  · exact hidem _ (hrun s)
  · intro hnd
    by_cases h : s.running
    · simpa [hidem s h] using hnd
    · simp only [start_scheduler, h, if_false]
      exact add_job_ids_nodup _ _ (add_job_ids_nodup _ _ (add_job_ids_nodup _ _ hnd))
  · by_cases h : s.running
    · simp [stop_scheduler, h, is_running]
    · simp [stop_scheduler, h, is_running]

/-- Witness for the C10 theorem: a running scheduler is left untouched by
`start_scheduler`, and starting from a fresh state leaves the job ids
duplicate-free. -/
theorem scheduler_start_idempotent_is_running_exact_w :
    start_scheduler ⟨[blogGenerationJob], true, true⟩ = ⟨[blogGenerationJob], true, true⟩ ∧
    ((start_scheduler ⟨[], false, false⟩).jobs.map SchedJob.id).Nodup :=
  ⟨(scheduler_start_idempotent_is_running_exact _).1 rfl,
   (scheduler_start_idempotent_is_running_exact _).2.2.1 (by simp)⟩

/-- A string with the prefix `##` starts with two hash characters. -/
lemma prefix_hh_shape {t : Str} (h : List.isPrefixOf ("##".data) t = true) :
    ∃ rest, t = '#' :: '#' :: rest := by
  have e : ("##".data) = ['#', '#'] := rfl
  rw [e] at h
  match t with
  | [] => simp [List.isPrefixOf] at h
  | [b] => simp [List.isPrefixOf] at h
  | b :: c :: rest =>
    simp [List.isPrefixOf] at h
    exact ⟨rest, by rw [← h.1, ← h.2]⟩

/-- A string with the prefix `##` does not have the prefix `# `. -/
lemma prefix_hh_not_hspace {t : Str} (h : List.isPrefixOf ("##".data) t = true) :
    List.isPrefixOf ("# ".data) t = false := by
  rcases prefix_hh_shape h with ⟨rest, hrest⟩
  rw [hrest]
  have e : ("# ".data) = ['#', ' '] := rfl
  rw [e]
  simp [List.isPrefixOf]

/-- A string with a one-character prefix is nonempty. -/
lemma prefix_cons_nonempty {a : Char} {p t : Str}
    (h : List.isPrefixOf (a :: p) t = true) : t.isEmpty = false := by
  cases t with
  | nil => simp [List.isPrefixOf] at h
  | cons b bs => rfl

/-- The prefix test for `###` entails the prefix test for `##`. -/
lemma prefix_hhh_implies_hh {t : Str} (h : List.isPrefixOf ("###".data) t = true) :
    List.isPrefixOf ("##".data) t = true := by
  rw [List.isPrefixOf_iff_prefix] at h ⊢
  exact List.IsPrefix.trans ⟨['#'], rfl⟩ h

/-- A string with a nonempty prefix is nonempty. -/
lemma nonempty_of_prefix {p t : Str} (h : List.isPrefixOf p t = true)
    (hp : p.isEmpty = false) : t.isEmpty = false := by
  cases p with
  | nil => simp at hp
  | cons a as =>
    cases t with
    | nil => simp [List.isPrefixOf] at h
    | cons b bs => rfl

/-- An all-uppercase string (in the `str.isupper` sense) is nonempty. -/
lemma pyIsUpper_nonempty {t : Str} (h : pyIsUpper t = true) : t.isEmpty = false := by
  cases t with
  | nil => simp [pyIsUpper] at h
  | cons a as => rfl

/-- C8 amended: the normalizer splits on newlines, maps the per-line rule,
and rejoins; the per-line rule first strips the line of surrounding
whitespace and then: an empty result stays empty; a stripped line starting
with `# ` (and not `## `) or starting with `##` passes through (already
stripped); an all-uppercase stripped line of at most five words becomes a
level-2 heading in title case; every other line becomes its stripped
form. -/
theorem ensure_markdown_per_line :
    (∀ content : Str, ensure_proper_markdown content =
        List.intercalate ['\n'] ((splitOnChar '\n' content).map processLine)) ∧
    (∀ l : Str, pyStrip l = [] → processLine l = []) ∧
    (∀ l : Str, List.isPrefixOf ("# ".data) (pyStrip l) = true →
        List.isPrefixOf ("## ".data) (pyStrip l) = false →
        processLine l = pyStrip l) ∧
    (∀ l : Str, List.isPrefixOf ("##".data) (pyStrip l) = true →
        processLine l = pyStrip l) ∧
    (∀ l : Str, List.isPrefixOf ("# ".data) (pyStrip l) = false →
        List.isPrefixOf ("##".data) (pyStrip l) = false →
        pyIsUpper (pyStrip l) = true → (pySplit (pyStrip l)).length ≤ 5 →
        processLine l = ("## ".data) ++ pyTitle (pyStrip l)) ∧
    (∀ l : Str, pyStrip l ≠ [] →
        List.isPrefixOf ("# ".data) (pyStrip l) = false →
        List.isPrefixOf ("##".data) (pyStrip l) = false →
        (pyIsUpper (pyStrip l) = false ∨ ¬ (pySplit (pyStrip l)).length ≤ 5) →
        processLine l = pyStrip l) := by
  have hhh : ∀ t : Str, List.isPrefixOf ("##".data) t = false →
      List.isPrefixOf ("###".data) t = false := by
    intro t h2
    cases hq : List.isPrefixOf ("###".data) t with
    | false => rfl
    | true => rw [prefix_hhh_implies_hh hq] at h2; exact absurd h2 (by simp)
  refine ⟨fun _ => rfl, ?_, ?_, ?_, ?_, ?_⟩
  · intro l h
    simp [processLine, h]
  · intro l h1 h2
    have hie : (pyStrip l).isEmpty = false := nonempty_of_prefix h1 rfl
    simp [processLine, hie, h1, h2]
  · intro l h
    have hie : (pyStrip l).isEmpty = false := nonempty_of_prefix h rfl
    have h1 : List.isPrefixOf ("# ".data) (pyStrip l) = false := prefix_hh_not_hspace h
    simp [processLine, hie, h1, h]
  · intro l h1 h2 h3 h4
    have hie : (pyStrip l).isEmpty = false := pyIsUpper_nonempty h3
    simp [processLine, hie, h1, h2, hhh _ h2, h3, h4]
  · intro l hne h1 h2 hdisj
    have hie : (pyStrip l).isEmpty = false := by
      cases hpt : pyStrip l with
      | nil => exact absurd hpt hne
      | cons a as => rfl
    rcases hdisj with hup | hlen
    · simp [processLine, hie, h1, h2, hhh _ h2, hup]
    · simp [processLine, hie, h1, h2, hhh _ h2, hlen]

/-- C8 counterexample: lines are NOT passed through unchanged in general.
A line carrying leading whitespace is stripped, and the line `#FOO`,
although it already starts with `#`, is rewritten to `## #Foo` because the
heading test demands a space after the single `#` while the uppercase rule
still fires. -/
theorem ensure_markdown_claim_false :
    ensure_proper_markdown (" x".data) ≠ " x".data ∧
    ensure_proper_markdown ("#FOO".data) ≠ "#FOO".data := by
  decide

/-- Witness for the C8 theorem: a whitespace-only line becomes empty and an
uppercase line becomes a title-case level-2 heading. -/
theorem ensure_markdown_per_line_w :
    processLine ("   ".data) = [] ∧
    processLine (" OVERVIEW ".data) = "## Overview".data := by
  constructor
  · exact ensure_markdown_per_line.2.1 _ (by decide)
  · have h := ensure_markdown_per_line.2.2.2.2.1 (" OVERVIEW ".data)
      (by decide) (by decide) (by decide) (by decide)
    rw [h]
    decide

/-! ## Slug lemmas for C3 and C7 -/

/-- A slug-alphabet-or-hyphen character is not regex whitespace. -/
lemma slugClass_not_space {c : Char} (h : (isSlugChar c || c == '-') = true) :
    isPySpace c = false := by
  cases hs : isPySpace c with
  | false => rfl
  | true =>
    exfalso
    simp only [isPySpace, Bool.or_eq_true, beq_iff_eq] at hs
    rcases hs with ((((h1 | h1) | h1) | h1) | h1) | h1 <;> subst h1 <;>
      exact absurd h (by decide)

/-- A slug-alphabet-or-hyphen character is fixed by ASCII lowercasing. -/
lemma slugClass_toLower {c : Char} (h : (isSlugChar c || c == '-') = true) :
    toLowerAscii c = c := by
  unfold toLowerAscii
  cases hu : isUpperAZ c with
  | false => rfl
  | true =>
    exfalso
    simp only [isUpperAZ, Bool.and_eq_true, decide_eq_true_eq] at hu
    simp only [isSlugChar, isAlnumLower, isLowerAZ, isDigit09, Bool.or_eq_true,
      Bool.and_eq_true, decide_eq_true_eq, beq_iff_eq] at h
    rcases h with (⟨h1, h2⟩ | ⟨h1, h2⟩) | h1
    · exact absurd (le_trans h1 hu.2) (by decide)
    · exact absurd (le_trans hu.1 h2) (by decide)
    · subst h1; exact absurd hu.1 (by decide)

/-- A character kept by the slug filter that is not a separator is in the
slug alphabet. -/
lemma slugAllowed_not_sep {c : Char} (h1 : slugAllowed c = true)
    (h2 : isSep c = false) : isSlugChar c = true := by
  simp only [isSep, Bool.or_eq_false_iff] at h2
  simp only [slugAllowed, h2.1, h2.2, Bool.or_false] at h1
  exact h1

/-- The head of `dropWhile p` does not satisfy `p`. -/
lemma head?_dropWhile_false (p : Char → Bool) :
    ∀ l : Str, ∀ c, (l.dropWhile p).head? = some c → p c = false := by
  intro l
  induction l with
  | nil => intro c h; simp at h
  | cons a as ih =>
    intro c h
    by_cases hp : p a
    · rw [List.dropWhile_cons_of_pos hp] at h
      exact ih c h
    · rw [List.dropWhile_cons_of_neg hp] at h
      simp at h
      rw [← h]
      exact Bool.of_not_eq_true hp

/-- `dropLastWhile p l` is a prefix of `l`, and the removed suffix
satisfies `p` pointwise. -/
lemma dropLastWhile_decomp (p : Char → Bool) (l : Str) :
    ∃ t : Str, (∀ c ∈ t, p c = true) ∧ l = dropLastWhile p l ++ t := by
  refine ⟨(l.reverse.takeWhile p).reverse, ?_, ?_⟩
  · intro c hc
    rw [List.mem_reverse] at hc
    exact List.mem_takeWhile_imp hc
  · unfold dropLastWhile
    rw [← List.reverse_append, List.takeWhile_append_dropWhile, List.reverse_reverse]

/-- `noDoubleHyphen` restricted to the tail. -/
lemma noDouble_tail {a : Char} {l : Str} (h : noDoubleHyphen (a :: l) = true) :
    noDoubleHyphen l = true := by
  cases l with
  | nil => rfl
  | cons b bs =>
    simp only [noDoubleHyphen, Bool.and_eq_true] at h
    exact h.2

/-- Build `noDoubleHyphen` for a cons cell. -/
lemma noDouble_cons {a : Char} {l : Str} (h1 : noDoubleHyphen l = true)
    (h2 : a = '-' → ∀ c, l.head? = some c → c ≠ '-') :
    noDoubleHyphen (a :: l) = true := by
  cases l with
  | nil => rfl
  | cons b bs =>
    simp only [noDoubleHyphen, Bool.and_eq_true, h1, and_true,
      Bool.not_eq_true', Bool.and_eq_false_iff, beq_eq_false_iff_ne, ne_eq]
    by_cases ha : a = '-'
    · right
      exact h2 ha b rfl
    · left
      exact ha

/-- `noDoubleHyphen` holds on a left factor of an append. -/
lemma noDouble_append_left :
    ∀ {l₁ l₂ : Str}, noDoubleHyphen (l₁ ++ l₂) = true → noDoubleHyphen l₁ = true := by
  intro l₁
  induction l₁ with
  | nil => intro l₂ _; rfl
  | cons a as ih =>
    intro l₂ h
    cases as with
    | nil => rfl
    | cons b bs =>
      simp only [List.cons_append, noDoubleHyphen, Bool.and_eq_true] at h ⊢
      exact ⟨h.1, ih h.2⟩

/-- `noDoubleHyphen` survives `dropWhile`. -/
lemma noDouble_dropWhile (p : Char → Bool) :
    ∀ l : Str, noDoubleHyphen l = true → noDoubleHyphen (l.dropWhile p) = true := by
  intro l
  induction l with
  | nil => intro _; rfl
  | cons a as ih =>
    intro h
    by_cases hp : p a
    · rw [List.dropWhile_cons_of_pos hp]
      exact ih (noDouble_tail h)
    · rw [List.dropWhile_cons_of_neg hp]
      exact h

/-- In a string without double hyphens that ends in a hyphen, the character
before the final hyphen is not a hyphen. -/
lemma noDouble_dropLast_getLast :
    ∀ l : Str, noDoubleHyphen l = true → l.getLast? = some '-' →
      ∀ c, l.dropLast.getLast? = some c → c ≠ '-' := by
  intro l
  induction l with
  | nil => intro _ h; simp at h
  | cons a as ih =>
    intro hnd hlast c hc
    cases as with
    | nil => simp at hc
    | cons b bs =>
      cases bs with
      | nil =>
        -- l = [a, b] with b = '-', dropLast = [a], so c = a and a ≠ '-'
        have hb : b = '-' := by simpa using hlast
        have hca : a = c := by simpa using hc
        intro hcontra
        rw [← hca] at hcontra
        rw [hcontra, hb] at hnd
        exact absurd hnd (by decide)
      | cons d ds =>
        have hlast2 : (b :: d :: ds).getLast? = some '-' := by
          simpa [List.getLast?_cons_cons] using hlast
        have hc2 : (b :: d :: ds).dropLast.getLast? = some c := by
          have : (a :: b :: d :: ds).dropLast = a :: (b :: d :: ds).dropLast := by
            simp [List.dropLast_cons₂]
          rw [this] at hc
          cases hq : (b :: d :: ds).dropLast with
          | nil => simp [List.dropLast_cons₂] at hq
          | cons e es =>
            rw [hq] at hc
            simpa [List.getLast?_cons_cons] using hc
        exact ih (noDouble_tail hnd) hlast2 c hc2

/-- Step equation: a separator at the head with the flag set is skipped. -/
lemma collapseSeps_sep_true {a : Char} {as : Str} (ha : isSep a = true) :
    collapseSeps true (a :: as) = collapseSeps true as := by
  simp [collapseSeps, ha]

/-- Step equation: a separator at the head with the flag clear emits one
hyphen. -/
lemma collapseSeps_sep_false {a : Char} {as : Str} (ha : isSep a = true) :
    collapseSeps false (a :: as) = '-' :: collapseSeps true as := by
  simp [collapseSeps, ha]

/-- Step equation: a non-separator character passes through. -/
lemma collapseSeps_nonsep {a : Char} {as : Str} {b : Bool} (ha : isSep a = false) :
    collapseSeps b (a :: as) = a :: collapseSeps false as := by
  simp [collapseSeps, ha]

/-- Every character emitted by `collapseSeps` is a hyphen or a non-separator
character of the input. -/
lemma collapse_mem :
    ∀ (l : Str) (b : Bool) (c : Char), c ∈ collapseSeps b l →
      c = '-' ∨ (c ∈ l ∧ isSep c = false) := by
  intro l
  induction l with
  | nil => intro b c h; simp [collapseSeps] at h
  | cons a as ih =>
    intro b c h
    cases ha : isSep a with
    | true =>
      cases b with
      | true =>
        rw [collapseSeps_sep_true ha] at h
        rcases ih true c h with h1 | ⟨h1, h2⟩
        · exact Or.inl h1
        · exact Or.inr ⟨List.mem_cons_of_mem a h1, h2⟩
      | false =>
        rw [collapseSeps_sep_false ha] at h
        rcases List.mem_cons.mp h with h1 | h1
        · exact Or.inl h1
        · rcases ih true c h1 with h2 | ⟨h2, h3⟩
          · exact Or.inl h2
          · exact Or.inr ⟨List.mem_cons_of_mem a h2, h3⟩
    | false =>
      rw [collapseSeps_nonsep ha] at h
      rcases List.mem_cons.mp h with h1 | h1
      · right
        refine ⟨by rw [h1]; exact List.mem_cons_self a as, ?_⟩
        rw [h1]
        exact ha
      · rcases ih false c h1 with h2 | ⟨h2, h3⟩
        · exact Or.inl h2
        · exact Or.inr ⟨List.mem_cons_of_mem a h2, h3⟩

/-- After a separator run was just emitted, the next character produced by
`collapseSeps` is never a separator. -/
lemma collapse_head :
    ∀ (l : Str) (c : Char), (collapseSeps true l).head? = some c → isSep c = false := by
  intro l
  induction l with
  | nil => intro c h; simp [collapseSeps] at h
  | cons a as ih =>
    intro c h
    cases ha : isSep a with
    | true =>
      rw [collapseSeps_sep_true ha] at h
      exact ih c h
    | false =>
      rw [collapseSeps_nonsep ha] at h
      simp only [List.head?_cons, Option.some_inj] at h
      rw [← h]
      exact ha

/-- `collapseSeps` never emits two consecutive hyphens. -/
lemma collapse_noDouble :
    ∀ (l : Str) (b : Bool), noDoubleHyphen (collapseSeps b l) = true := by
  intro l
  induction l with
  | nil => intro b; rfl
  | cons a as ih =>
    intro b
    cases ha : isSep a with
    | true =>
      cases b with
      | true =>
        rw [collapseSeps_sep_true ha]
        exact ih true
      | false =>
        rw [collapseSeps_sep_false ha]
        apply noDouble_cons (ih true)
        intro _ c hc hcontra
        rw [hcontra] at hc
        exact absurd (collapse_head as '-' hc) (by decide)
    | false =>
      rw [collapseSeps_nonsep ha]
      apply noDouble_cons (ih false)
      intro ha2 c hc
      exact absurd (show isSep a = true by rw [ha2]; decide) (by simp [ha])

/-- On a whitespace-free string without double hyphens (and, when the flag
is set, without a leading hyphen), `collapseSeps` is the identity. -/
lemma collapse_fix :
    ∀ (l : Str) (b : Bool), (∀ c ∈ l, isPySpace c = false) →
      noDoubleHyphen l = true →
      (b = true → ∀ c, l.head? = some c → c ≠ '-') →
      collapseSeps b l = l := by
  intro l
  induction l with
  | nil => intro b _ _ _; rfl
  | cons a as ih =>
    intro b hsp hnd hhd
    by_cases ha : a = '-'
    · have hsep : isSep a = true := by rw [ha]; decide
      cases b with
      | true => exact absurd ha (hhd rfl a rfl)
      | false =>
        rw [collapseSeps_sep_false hsep, ha]
        congr 1
        apply ih true (fun c hc => hsp c (List.mem_cons_of_mem a hc)) (noDouble_tail hnd)
        intro _ c hc hcontra
        rw [hcontra] at hc
        cases as with
        | nil => simp at hc
        | cons b2 bs =>
          have hb2 : b2 = '-' := by simpa using hc
          rw [ha, hb2] at hnd
          simp [noDoubleHyphen] at hnd
    · by_cases hsep : isSep a
      · exfalso
        have hws : isPySpace a = true := by
          simp only [isSep, Bool.or_eq_true, beq_iff_eq] at hsep
          rcases hsep with h1 | h1
          · exact h1
          · exact absurd h1 ha
        rw [hsp a (List.mem_cons_self a as)] at hws
        exact absurd hws (by simp)
      · rw [collapseSeps_nonsep (Bool.of_not_eq_true hsep)]
        congr 1
        exact ih false (fun c hc => hsp c (List.mem_cons_of_mem a hc))
          (noDouble_tail hnd) (fun h => absurd h (by simp))

/-- The head of an append with a nonempty left factor. -/
lemma head?_append_left {l₁ l₂ : Str} (h : l₁ ≠ []) :
    (l₁ ++ l₂).head? = l₁.head? := by
  cases l₁ with
  | nil => exact absurd rfl h
  | cons a as => rfl

/-- `slugCore` produces only slug characters and single hyphens, with no
hyphen at either end. -/
lemma slug_core_props (s : Str) :
    (∀ c ∈ slugCore s, (isSlugChar c || c == '-') = true) ∧
    noDoubleHyphen (slugCore s) = true ∧
    (∀ c, (slugCore s).head? = some c → c ≠ '-') ∧
    (∀ c, (slugCore s).getLast? = some c → c ≠ '-') := by
  have hBmem : ∀ c ∈ collapseSeps false ((s.map toLowerAscii).filter slugAllowed),
      (isSlugChar c || c == '-') = true := by
    intro c hc
    rcases collapse_mem _ false c hc with h1 | ⟨h1, h2⟩
    · rw [h1]; decide
    · have hall : slugAllowed c = true := List.of_mem_filter h1
      simp [slugAllowed_not_sep hall h2]
  set B := collapseSeps false ((s.map toLowerAscii).filter slugAllowed) with hB
  set A := B.dropWhile (fun c => c == '-') with hA
  have hcore : slugCore s = dropLastWhile (fun c => c == '-') A := rfl
  obtain ⟨t, htp, hdecomp⟩ := dropLastWhile_decomp (fun c => c == '-') A
  rw [← hcore] at hdecomp
  have hAmem : ∀ c ∈ A, (isSlugChar c || c == '-') = true := by
    intro c hc
    apply hBmem
    have hsplit : B.takeWhile (fun c2 => c2 == '-') ++ B.dropWhile (fun c2 => c2 == '-') = B :=
      List.takeWhile_append_dropWhile _ _
    rw [← hsplit]
    exact List.mem_append_right _ hc
  have hAnd : noDoubleHyphen A = true :=
    noDouble_dropWhile _ B (collapse_noDouble _ false)
  refine ⟨?_, ?_, ?_, ?_⟩
  · intro c hc
    apply hAmem
    rw [hdecomp]
    exact List.mem_append_left _ hc
  · have := hAnd
    rw [hdecomp] at this
    exact noDouble_append_left this
  · intro c hc
    have hne : slugCore s ≠ [] := by
      intro h
      rw [h] at hc
      simp at hc
    have : A.head? = some c := by
      rw [hdecomp, head?_append_left hne]
      exact hc
    have hfalse : (c == '-') = false := head?_dropWhile_false _ B c this
    simpa using hfalse
  · intro c hc
    have hrev : (slugCore s).reverse = A.reverse.dropWhile (fun c2 => c2 == '-') := by
      rw [hcore]
      unfold dropLastWhile
      rw [List.reverse_reverse]
    have : (A.reverse.dropWhile (fun c2 => c2 == '-')).head? = some c := by
      rw [← hrev, List.head?_reverse]
      exact hc
    have hfalse : (c == '-') = false := head?_dropWhile_false _ A.reverse c this
    simpa using hfalse

/-- `generate_slug` is the truncation of `slugCore`. -/
lemma generate_slug_eq_take (s : Str) : generate_slug s = (slugCore s).take 100 := rfl

/-- Assemble `matchesSlugPattern` from its conjuncts. -/
lemma pattern_build {l : Str} (hne : l ≠ [])
    (hmem : ∀ c ∈ l, (isSlugChar c || c == '-') = true)
    (hnd : noDoubleHyphen l = true)
    (hhd : ∀ c, l.head? = some c → c ≠ '-')
    (hlast : ∀ c, l.getLast? = some c → c ≠ '-') :
    matchesSlugPattern l = true := by
  unfold matchesSlugPattern
  have h1 : l.isEmpty = false := by
    cases l with
    | nil => exact absurd rfl hne
    | cons a as => rfl
  have h2 : l.all (fun c => isSlugChar c || c == '-') = true := List.all_eq_true.mpr hmem
  have h3 : (l.head? == some '-') = false := by
    cases hh : l.head? with
    | none => rfl
    | some c => simp [beq_eq_false_iff_ne, hhd c hh]
  have h4 : (l.getLast? == some '-') = false := by
    cases hh : l.getLast? with
    | none => rfl
    | some c => simp [beq_eq_false_iff_ne, hlast c hh]
  simp [h1, h2, h3, h4, hnd]

/-- The head of a positive-length take. -/
lemma head?_take_of_some {l : Str} {n : Nat} {c : Char}
    (h : (l.take n).head? = some c) : l.head? = some c := by
  cases l with
  | nil => simp at h
  | cons a as =>
    cases n with
    | zero => simp at h
    | succ m => simpa using h

/-- Dropping the last element of a list of length at least two keeps the
head. -/
lemma head?_dropLast_two {l : Str} (h : 2 ≤ l.length) :
    l.dropLast.head? = l.head? := by
  cases l with
  | nil => simp at h
  | cons a as =>
    cases as with
    | nil => simp at h
    | cons b bs => rfl

/-- C3 amended: the slug is at most 100 characters and is empty, or matches
`^[a-z0-9]+(-[a-z0-9]+)*$`, or is a full 100-character truncation that ends
in one trailing hyphen with everything before it matching the pattern (the
source strips hyphens before truncating, so truncation can re-expose a
trailing hyphen). -/
theorem generate_slug_shape :
    ∀ s : Str,
      (generate_slug s).length ≤ 100 ∧
      (generate_slug s = [] ∨ matchesSlugPattern (generate_slug s) = true ∨
        ((generate_slug s).length = 100 ∧ (generate_slug s).getLast? = some '-' ∧
          matchesSlugPattern ((generate_slug s).dropLast) = true)) := by
  intro s
  obtain ⟨hmem, hnd, hhd, hlast⟩ := slug_core_props s
  rw [generate_slug_eq_take]
  constructor
  · rw [List.length_take]
    exact min_le_left _ _
  · by_cases hlen : (slugCore s).length ≤ 100
    · rw [List.take_of_length_le hlen]
      by_cases hC : slugCore s = []
      · exact Or.inl hC
      · exact Or.inr (Or.inl (pattern_build hC hmem hnd hhd hlast))
    · push_neg at hlen
      have hr : ((slugCore s).take 100).length = 100 := by
        rw [List.length_take]
        omega
      have hmr : ∀ c ∈ (slugCore s).take 100, (isSlugChar c || c == '-') = true :=
        fun c hc => hmem c (List.take_subset _ _ hc)
      have hndr : noDoubleHyphen ((slugCore s).take 100) = true := by
        have h0 := hnd
        rw [← List.take_append_drop 100 (slugCore s)] at h0
        exact noDouble_append_left h0
      have hhdr : ∀ c, ((slugCore s).take 100).head? = some c → c ≠ '-' :=
        fun c hc => hhd c (head?_take_of_some hc)
      have hrne : (slugCore s).take 100 ≠ [] := by
        intro h
        rw [h] at hr
        simp at hr
      cases hlg : ((slugCore s).take 100).getLast? with
      | none =>
        exfalso
        rw [List.getLast?_eq_none_iff] at hlg
        exact hrne hlg
      | some c =>
        by_cases hch : c = '-'
        · subst hch
          right; right
          refine ⟨hr, rfl, ?_⟩
          apply pattern_build
          · intro h
            have hlen2 := congrArg List.length h
            rw [List.length_dropLast, hr] at hlen2
            simp at hlen2
          · intro c2 hc2
            exact hmr c2 (List.dropLast_subset _ hc2)
          · have h0 := hndr
            have hsplit := List.dropLast_append_getLast hrne
            rw [← hsplit] at h0
            exact noDouble_append_left h0
          · intro c2 hc2
            have h2le : 2 ≤ ((slugCore s).take 100).length := by
              rw [hr]
              omega
            rw [head?_dropLast_two h2le] at hc2
            exact hhdr c2 hc2
          · intro c2 hc2
            exact noDouble_dropLast_getLast _ hndr hlg c2 hc2
        · right; left
          apply pattern_build hrne hmr hndr hhdr
          intro c2 hc2
          rw [hlg] at hc2
          have hcc : c = c2 := by simpa using hc2
          rw [← hcc]
          exact hch

/-- C3 counterexample: the slug of ninety-nine `a` characters followed by
` b` is the 100-character string of the `a` run plus a trailing hyphen,
which is neither empty nor a match of `^[a-z0-9]+(-[a-z0-9]+)*$`. -/
theorem generate_slug_claim_false :
    ¬ (generate_slug ((List.replicate 99 'a') ++ [' ', 'b']) = [] ∨
       matchesSlugPattern (generate_slug ((List.replicate 99 'a') ++ [' ', 'b'])) = true) := by
  decide

/-- A map that fixes every member fixes the list. -/
lemma map_fix {f : Char → Char} :
    ∀ l : Str, (∀ c ∈ l, f c = c) → l.map f = l := by
  intro l
  induction l with
  | nil => intro _; rfl
  | cons a as ih =>
    intro h
    rw [List.map_cons, h a (List.mem_cons_self a as),
      ih (fun c hc => h c (List.mem_cons_of_mem a hc))]

/-- A filter whose predicate holds on every member fixes the list. -/
lemma filter_fix {p : Char → Bool} :
    ∀ l : Str, (∀ c ∈ l, p c = true) → l.filter p = l := by
  intro l
  induction l with
  | nil => intro _; rfl
  | cons a as ih =>
    intro h
    rw [List.filter_cons_of_pos (h a (List.mem_cons_self a as)),
      ih (fun c hc => h c (List.mem_cons_of_mem a hc))]

/-- A slug-alphabet-or-hyphen character survives the slug filter. -/
lemma slugClass_allowed {c : Char} (h : (isSlugChar c || c == '-') = true) :
    slugAllowed c = true := by
  have h2 : isSlugChar c = true ∨ c = '-' := by simpa using h
  rcases h2 with h1 | h1
  · simp only [isSlugChar] at h1
    simp [slugAllowed, h1]
  · subst h1
    decide

/-- C7 amended: applying `generate_slug` to its own output only strips the
one trailing hyphen that truncation may have re-exposed; in particular the
function is idempotent exactly on outputs that do not end in a hyphen. -/
theorem generate_slug_second_application :
    ∀ s : Str, generate_slug (generate_slug s) =
      dropLastWhile (fun c => c == '-') (generate_slug s) := by
  intro s
  obtain ⟨hmemC, hndC, hhdC, _⟩ := slug_core_props s
  rw [generate_slug_eq_take s]
  have hmem : ∀ c ∈ (slugCore s).take 100, (isSlugChar c || c == '-') = true :=
    fun c hc => hmemC c (List.take_subset _ _ hc)
  have hnd : noDoubleHyphen ((slugCore s).take 100) = true := by
    have h0 := hndC
    rw [← List.take_append_drop 100 (slugCore s)] at h0
    exact noDouble_append_left h0
  have hhd : ∀ c, ((slugCore s).take 100).head? = some c → c ≠ '-' :=
    fun c hc => hhdC c (head?_take_of_some hc)
  rw [generate_slug_eq_take ((slugCore s).take 100)]
  have h1 : ((slugCore s).take 100).map toLowerAscii = (slugCore s).take 100 :=
    map_fix _ (fun c hc => slugClass_toLower (hmem c hc))
  have h2 : ((slugCore s).take 100).filter slugAllowed = (slugCore s).take 100 :=
    filter_fix _ (fun c hc => slugClass_allowed (hmem c hc))
  have h3 : collapseSeps false ((slugCore s).take 100) = (slugCore s).take 100 :=
    collapse_fix _ false (fun c hc => slugClass_not_space (hmem c hc)) hnd
      (fun h => absurd h (by simp))
  have h4 : ((slugCore s).take 100).dropWhile (fun c => c == '-') =
      (slugCore s).take 100 := by
    cases hq : (slugCore s).take 100 with
    | nil => rfl
    | cons a as =>
      rw [List.dropWhile_cons_of_neg]
      have ha : a ≠ '-' := hhd a (by simp [hq])
      simp [ha]
  have hcore2 : slugCore ((slugCore s).take 100) =
      dropLastWhile (fun c => c == '-') ((slugCore s).take 100) := by
    show stripBoth (fun c => c == '-')
        (collapseSeps false
          ((((slugCore s).take 100).map toLowerAscii).filter slugAllowed)) = _
    rw [h1, h2, h3]
    show dropLastWhile (fun c => c == '-')
        (((slugCore s).take 100).dropWhile (fun c => c == '-')) = _
    rw [h4]
  rw [hcore2]
  apply List.take_of_length_le
  obtain ⟨t, _, hdecomp⟩ := dropLastWhile_decomp (fun c => c == '-') ((slugCore s).take 100)
  have hlen1 := congrArg List.length hdecomp
  rw [List.length_append] at hlen1
  have hlen2 : ((slugCore s).take 100).length ≤ 100 := by
    rw [List.length_take]
    exact min_le_left _ _
  omega

/-- C7 counterexample: `generate_slug` is not idempotent.  On ninety-nine
`c` characters followed by ` d` the slug ends in a truncation-exposed
hyphen, and a second application removes it. -/
theorem generate_slug_not_idempotent :
    generate_slug (generate_slug ((List.replicate 99 'c') ++ [' ', 'd'])) ≠
      generate_slug ((List.replicate 99 'c') ++ [' ', 'd']) := by
  decide
